import Mathlib

/-!
Verification of the upld.is paste service core (src/main.rs).

The embedding models the request handlers of the service: `handle_put`
(upload with validation, content hashing, deduplicated insertion and
counter tracking), `handle_get` (two-tier cache-then-origin retrieval),
`handle_usage` (info page) and the counter helpers `upload_count` and
`track_uploads`.

Bytes are `Nat` lists (each element a byte value). The external blake3
crate is modelled as a parameter: a structure `Blake3` packaging a hash
function together with the facts the crate guarantees (the digest is
exactly 32 bytes, each below 256). The bs58 crate encoding is translated
concretely (`bs58Encode`). The Fastly KV store and the edge cache are
modelled as explicit state (`SysState`); a cache write fault is modelled
by the `cacheWriteOk` flag, and the Rust question-mark error propagation
by `Except`.
-/

/-- Upload ID length (const ID_LENGTH in main.rs). -/
def ID_LENGTH : Nat := 8

/-- Minimum content size in bytes (const MIN_CONTENT_SIZE). -/
def MIN_CONTENT_SIZE : Nat := 32

/-- Maximum content size in bytes (const MAX_CONTENT_SIZE = 24 << 20). -/
def MAX_CONTENT_SIZE : Nat := 24 * 2 ^ 20

/-- TTL for content in seconds (const KV_TTL). -/
def KV_TTL : Nat := 7 * 86400

/-- Request cache ttl in seconds (const CACHE_TTL). -/
def CACHE_TTL : Nat := 30 * 86400

/-- Key to store upload metrics under (const UPLOAD_METRICS_KEY). -/
def UPLOAD_METRICS_KEY : String := "_upload_metrics"

/-- Response body: either a text body or a raw byte body. -/
inductive RespBody
  | text : String → RespBody
  | bytes : List Nat → RespBody
deriving DecidableEq

/-- An HTTP response: status code and body. -/
structure Response where
  status : Nat
  body : RespBody
deriving DecidableEq

/-- An entry of the KV store: value bytes, per-key write generation
(incremented on every write to the key, starting at 0 on creation,
as assumed of the Fastly backend by upload_count) and optional TTL. -/
structure KVEntry where
  value : List Nat
  generation : Nat
  ttl : Option Nat
deriving DecidableEq

/-- An entry of the edge cache: bytes, TTL and surrogate keys. -/
structure CacheEntry where
  value : List Nat
  ttl : Nat
  surrogate : List String
deriving DecidableEq

/-- The shared mutable state: the KV store map, the edge cache map, and
a fault-injection flag telling whether a cache write would succeed. -/
structure SysState where
  kv : String → Option KVEntry
  cache : String → Option CacheEntry
  cacheWriteOk : Bool

/-- The blake3 crate, as a parameter: a 256-bit hash function. The two
fields record what the crate guarantees about `blake3::hash(b).as_bytes()`:
32 bytes, each below 256. -/
structure Blake3 where
  hash : List Nat → List Nat
  length_eq : ∀ b, (hash b).length = 32
  lt_256 : ∀ b, ∀ x ∈ hash b, x < 256

/-- The bitcoin base58 alphabet, the default alphabet of the bs58 crate. -/
def BS58_ALPHABET : List Char :=
  "123456789ABCDEFGHJKLMNPQRSTUVWXYZabcdefghijkmnopqrstuvwxyz".data

/-- Big-endian base-58 digits of a natural number (empty for 0). -/
def natToBase58 (n : Nat) : List Nat :=
  if h : n = 0 then []
  else natToBase58 (n / 58) ++ [n % 58]
decreasing_by exact Nat.div_lt_self (Nat.pos_of_ne_zero h) (by decide)

/-- The big-endian value of a byte string. -/
def beVal (l : List Nat) : Nat :=
  l.foldl (fun acc b => acc * 256 + b) 0

/-- bs58 encoding of a byte string (bs58::encode(..).into_string()):
every leading zero byte becomes the first alphabet character, the rest is
the base-58 numeral of the big-endian value. -/
def bs58Encode (l : List Nat) : String :=
  let zeros := (l.takeWhile (fun b => b == 0)).length
  let digits := natToBase58 (beVal l)
  ⟨List.replicate zeros '1' ++ digits.map (fun d => BS58_ALPHABET.getD d '1')⟩

/-- Identifier derivation (main.rs lines 154 and 155): the first
ID_LENGTH bytes of the base58 encoding of the blake3 hash of the content.
All characters of the encoding are one-byte ASCII, so the byte slice of
the Rust source is the character take here. -/
def derive_id (h3 : Blake3) (b : List Nat) : String :=
  ⟨((bs58Encode (h3.hash b)).data.take ID_LENGTH)⟩

/-- The download URL returned by a successful upload (main.rs 168-179). -/
def mkDownloadUrl (host : String) (filename : Option String) (id : String) : String :=
  "https://" ++ host ++ "/" ++ id ++
    (match filename with
     | some f => if f ≠ "" then "/" ++ f else ""
     | none => "") ++ "\n"

/-- The parts of a PUT request the handler reads: the body when present
(req.has_body / req.take_body_bytes), the URL host, and the URL path
segments (whose last segment is the optional filename). -/
structure PutRequest where
  body? : Option (List Nat)
  host : String
  pathSegments : List String

/-- KV store insert with the content TTL
(kv.build_insert().time_to_live(KV_TTL).execute(key, body)). A write to
an existing key bumps its generation; a fresh key starts at generation 0. -/
def kvInsert (s : SysState) (key : String) (value : List Nat) : SysState :=
  { s with kv := fun k =>
      if k = key then
        some ⟨value, (match s.kv key with | none => 0 | some e => e.generation + 1), some KV_TTL⟩
      else s.kv k }

/-- UTF-8 byte list of a string (values of the encoded bytes). -/
def strBytes (s : String) : List Nat :=
  s.toUTF8.toList.map (fun b => b.toNat)

/-- Append the id and a timestamp to the metrics key (track_uploads in
main.rs): an append-mode insert creating the key at generation 0 or
appending and bumping the generation. The timestamp string stands for
the formatted seconds-since-epoch value. -/
def track_uploads (s : SysState) (id : String) (ts : String) : SysState :=
  { s with kv := fun k =>
      if k = UPLOAD_METRICS_KEY then
        some (match s.kv UPLOAD_METRICS_KEY with
          | none => ⟨strBytes (id ++ "," ++ ts), 0, none⟩
          | some e => ⟨e.value ++ strBytes (id ++ "," ++ ts), e.generation + 1, e.ttl⟩)
      else s.kv k }

/-- Get the upload counter from the KV store (upload_count in main.rs):
the generation of the metrics key plus one, or 0 when the lookup fails
because the key has never been written. -/
def upload_count (s : SysState) : Nat :=
  match s.kv UPLOAD_METRICS_KEY with
  | some e => e.generation + 1
  | none => 0

/-- The PUT handler (handle_put in main.rs): body presence check, then
minimum and maximum size checks, then hashing, then the dedup lookup with
conditional insert and counter append, then the download URL response. -/
def handle_put (h3 : Blake3) (req : PutRequest) (ts : String) (s : SysState) :
    Response × SysState :=
  match req.body? with
  | none => (⟨400, .text "missing upload body"⟩, s)
  | some body =>
    if body.length < MIN_CONTENT_SIZE then
      (⟨400, .text "content too small"⟩, s)
    else if MAX_CONTENT_SIZE < body.length then
      (⟨413, .text "content too large"⟩, s)
    else
      let id := derive_id h3 body
      let key := "file_" ++ id
      match s.kv key with
      | some _ => (⟨200, .text (mkDownloadUrl req.host req.pathSegments.getLast? id)⟩, s)
      | none =>
        let s1 := kvInsert s key body
        let s2 := track_uploads s1 id ts
        (⟨200, .text (mkDownloadUrl req.host req.pathSegments.getLast? id)⟩, s2)

/-- Split a character list at every occurrence of a separator, keeping
empty pieces, as the Rust str split does: the result is never empty. -/
def splitChar (sep : Char) : List Char → List (List Char)
  | [] => [[]]
  | x :: xs =>
    if x = sep then [] :: splitChar sep xs
    else
      match splitChar sep xs with
      | g :: gs => (x :: g) :: gs
      | [] => [[x]]

/-- UTF-8 byte length of a character list (the Rust str len). -/
def utf8Len (l : List Char) : Nat :=
  (l.map (fun c => c.utf8Size)).sum

/-- Errors a handler propagates with the Rust question mark, and the
panic of the expect on an empty segment iterator. -/
inductive UpldErr
  | cacheWriteError
  | panicMissingSegment
deriving DecidableEq

/-- Insert content into the edge cache under a key, with the cache TTL
and the surrogate key "get"
(cache::core::insert(key, CACHE_TTL).surrogate_keys(["get"])). -/
def cacheInsert (s : SysState) (key : String) (content : List Nat) : SysState :=
  { s with cache := fun k =>
      if k = key then some ⟨content, CACHE_TTL, ["get"]⟩ else s.cache k }

/-- The GET handler (handle_get in main.rs): take the first path segment
after the leading separator, require its byte length to be ID_LENGTH,
then consult the edge cache, then the KV store, populating the cache on
an origin hit. A failing cache write (cacheWriteOk = false) propagates
as an error, as the question marks on insert, write_all and finish do. -/
def handle_get (path : String) (s : SysState) :
    Except UpldErr (Response × SysState) :=
  let segments := (splitChar '/' path.data).drop 1
  match segments.head? with
  | none => .error .panicMissingSegment
  | some idChars =>
    if utf8Len idChars ≠ ID_LENGTH then
      .ok (⟨404, .text "not found"⟩, s)
    else
      let key := "file_" ++ String.mk idChars
      match s.cache key with
      | some entry => .ok (⟨200, .bytes entry.value⟩, s)
      | none =>
        match s.kv key with
        | none => .ok (⟨404, .text "not found"⟩, s)
        | some kvEntry =>
          if s.cacheWriteOk then
            .ok (⟨200, .bytes kvEntry.value⟩, cacheInsert s key kvEntry.value)
          else
            .error .cacheWriteError

/-- Rendered info page text (handle_usage in main.rs renders the static
help template; the template text is abbreviated here since only the
state behaviour of the handler is in scope: it reads the upload counter
and writes nothing). -/
def renderUsage (host : String) (count : Nat) : String :=
  host ++ " - no bullshit command line pastebin; all time uploads: " ++ Nat.repr count

/-- The info page handler (handle_usage in main.rs): reads the counter
from the KV store, renders the help text, changes no state. -/
def handle_usage (host : String) (s : SysState) : Response × SysState :=
  (⟨200, .text (renderUsage host (upload_count s))⟩, s)

/-- One inbound request, as routed by main: an upload, a retrieval, or
the info page. -/
inductive Op
  | put (req : PutRequest) (ts : String)
  | get (path : String)
  | usage (host : String)

/-- State transition of one request: the state a handler leaves behind
(an erroring retrieval has only read so far, so it leaves the state). -/
def stepOp (h3 : Blake3) (s : SysState) : Op → SysState
  | .put req ts => (handle_put h3 req ts s).2
  | .get path =>
    match handle_get path s with
    | .ok (_, s1) => s1
    | .error _ => s
  | .usage host => (handle_usage host s).2

/-- The state before any request: empty KV store, empty cache, cache
writes succeeding. -/
def initState : SysState :=
  ⟨fun _ => none, fun _ => none, true⟩

/-- Concrete state: one stored paste under file_aaaaaaaa, an empty edge
cache, and failing cache writes. -/
def sCacheFail : SysState :=
  ⟨fun k => if k = "file_aaaaaaaa" then some ⟨[65], 0, some KV_TTL⟩ else none,
   fun _ => none, false⟩

/-- Concrete state: one cache entry under file_abcdefgh. -/
def sCacheHit : SysState :=
  ⟨fun _ => none,
   fun k => if k = "file_abcdefgh" then some ⟨[1, 2, 3], CACHE_TTL, ["get"]⟩ else none,
   true⟩

/-- A concrete blake3 stand-in for witnesses: maps content to 32 copies
of its first byte. -/
def testBlake3 : Blake3 where
  hash := fun b => List.replicate 32 (b.headD 0 % 256)
  length_eq := fun b => List.length_replicate 32 _
  lt_256 := fun b x hx => by
    rcases (List.mem_replicate.mp hx) with ⟨-, rfl⟩
    exact Nat.mod_lt _ (by decide)

/-! ## Helper lemmas about the base58 encoding -/

theorem natToBase58_zero : natToBase58 0 = [] := by
  rw [natToBase58]
  simp

theorem natToBase58_pos (n : Nat) (h : n ≠ 0) :
    natToBase58 n = natToBase58 (n / 58) ++ [n % 58] := by
  rw [natToBase58]
  simp [h]

theorem natToBase58_lt (n : Nat) : ∀ d ∈ natToBase58 n, d < 58 := by
  induction n using Nat.strong_induction_on with
  | _ n ih =>
    by_cases h : n = 0
    · subst h
      rw [natToBase58_zero]
      intro d hd
      simp at hd
    · rw [natToBase58_pos n h]
      intro d hd
      rcases List.mem_append.mp hd with h1 | h2
      · exact ih (n / 58) (Nat.div_lt_self (Nat.pos_of_ne_zero h) (by decide)) d h1
      · have : d = n % 58 := by simpa using h2
        subst this
        exact Nat.mod_lt _ (by decide)

theorem natToBase58_length_ge (k : Nat) :
    ∀ n, 58 ^ k ≤ n → k + 1 ≤ (natToBase58 n).length := by
  induction k with
  | zero =>
    intro n hn
    have h0 : n ≠ 0 := by
      intro h
      subst h
      simp at hn
    rw [natToBase58_pos n h0]
    simp
  | succ k ih =>
    intro n hn
    have hpow : 0 < 58 ^ (k + 1) := Nat.pos_pow_of_pos _ (by decide)
    have h0 : n ≠ 0 := by omega
    have hdiv : 58 ^ k ≤ n / 58 := by
      rw [Nat.le_div_iff_mul_le (by decide)]
      calc 58 ^ k * 58 = 58 ^ (k + 1) := (Nat.pow_succ 58 k).symm
        _ ≤ n := hn
    have := ih (n / 58) hdiv
    rw [natToBase58_pos n h0]
    simp only [List.length_append, List.length_cons, List.length_nil]
    omega

theorem foldl_be_ge (t : List Nat) :
    ∀ acc : Nat, acc * 256 ^ t.length ≤ t.foldl (fun a b => a * 256 + b) acc := by
  induction t with
  | nil =>
    intro acc
    simp
  | cons x xs ih =>
    intro acc
    simp only [List.length_cons, List.foldl_cons]
    calc acc * 256 ^ (xs.length + 1) = (acc * 256) * 256 ^ xs.length := by ring
      _ ≤ (acc * 256 + x) * 256 ^ xs.length := Nat.mul_le_mul_right _ (Nat.le_add_right _ _)
      _ ≤ xs.foldl (fun a b => a * 256 + b) (acc * 256 + x) := ih _

theorem beVal_cons_ge (b : Nat) (t : List Nat) (hb : b ≠ 0) :
    256 ^ t.length ≤ beVal (b :: t) := by
  unfold beVal
  simp only [List.foldl_cons]
  calc 256 ^ t.length = 1 * 256 ^ t.length := (one_mul _).symm
    _ ≤ (0 * 256 + b) * 256 ^ t.length := Nat.mul_le_mul_right _ (by omega)
    _ ≤ t.foldl (fun a b => a * 256 + b) (0 * 256 + b) := foldl_be_ge t _

theorem beVal_dropWhile (l : List Nat) :
    beVal (l.dropWhile (fun b => b == 0)) = beVal l := by
  induction l with
  | nil => rfl
  | cons x xs ih =>
    by_cases hx : x = 0
    · subst hx
      rw [List.dropWhile_cons]
      simp only [beq_self_eq_true, if_true]
      rw [ih]
      unfold beVal
      simp
    · rw [List.dropWhile_cons]
      simp [hx]

theorem dropWhile_head_ne (l : List Nat) :
    ∀ h t, l.dropWhile (fun b => b == 0) = h :: t → h ≠ 0 := by
  induction l with
  | nil =>
    intro h t hc
    simp at hc
  | cons x xs ih =>
    intro h t hc
    rw [List.dropWhile_cons] at hc
    by_cases hx : x = 0
    · subst hx
      simp only [beq_self_eq_true, if_true] at hc
      exact ih h t hc
    · simp only [beq_iff_eq, hx, if_false] at hc
      rcases hc with ⟨rfl, rfl⟩
      exact hx

theorem stringLength_mk (cs : List Char) : (String.mk cs).length = cs.length := rfl

theorem bs58Encode_data (l : List Nat) :
    (bs58Encode l).data =
      List.replicate (l.takeWhile (fun b => b == 0)).length '1' ++
        (natToBase58 (beVal l)).map (fun d => BS58_ALPHABET.getD d '1') := rfl

theorem bs58Encode_length_ge (l : List Nat) : l.length ≤ (bs58Encode l).length := by
  have hlen : l.length =
      (l.takeWhile (fun b => b == 0)).length + (l.dropWhile (fun b => b == 0)).length := by
    conv_lhs => rw [← List.takeWhile_append_dropWhile (fun b => b == 0) l]
    exact List.length_append _ _
  have henc : (bs58Encode l).length =
      (l.takeWhile (fun b => b == 0)).length + (natToBase58 (beVal l)).length := by
    show (bs58Encode l).data.length = _
    rw [bs58Encode_data]
    simp [List.length_append]
  rw [henc, hlen]
  have hrest : (l.dropWhile (fun b => b == 0)).length ≤ (natToBase58 (beVal l)).length := by
    cases hd : l.dropWhile (fun b => b == 0) with
    | nil => simp
    | cons h t =>
      have hne : h ≠ 0 := dropWhile_head_ne l h t hd
      have h1 : 256 ^ t.length ≤ beVal l := by
        rw [← beVal_dropWhile l, hd]
        exact beVal_cons_ge h t hne
      have h2 : 58 ^ t.length ≤ beVal l :=
        le_trans (Nat.pow_le_pow_left (by decide) _) h1
      have h3 := natToBase58_length_ge t.length (beVal l) h2
      simp only [List.length_cons]
      omega
  omega

theorem alpha_getD_mem : ∀ d, d < 58 → BS58_ALPHABET.getD d '1' ∈ BS58_ALPHABET := by
  decide

theorem alpha_utf8Size : ∀ c ∈ BS58_ALPHABET, c.utf8Size = 1 := by
  decide

theorem alpha_ne_slash : ∀ c ∈ BS58_ALPHABET, c ≠ '/' := by
  decide

theorem mem_bs58Encode (l : List Nat) : ∀ c ∈ (bs58Encode l).data, c ∈ BS58_ALPHABET := by
  intro c hc
  rw [bs58Encode_data] at hc
  rcases List.mem_append.mp hc with h1 | h2
  · rcases List.mem_replicate.mp h1 with ⟨-, rfl⟩
    decide
  · rcases List.mem_map.mp h2 with ⟨d, hd, rfl⟩
    exact alpha_getD_mem d (natToBase58_lt _ d hd)

/-! ## Helper lemmas about the identifier -/

theorem utf8Len_eq_length (l : List Char) (h : ∀ c ∈ l, c.utf8Size = 1) :
    utf8Len l = l.length := by
  induction l with
  | nil => rfl
  | cons x xs ih =>
    unfold utf8Len at *
    simp only [List.map_cons, List.sum_cons, List.length_cons]
    rw [h x (by simp), ih (fun c hc => h c (by simp [hc]))]
    omega

theorem derive_id_data (h3 : Blake3) (b : List Nat) :
    (derive_id h3 b).data = (bs58Encode (h3.hash b)).data.take ID_LENGTH := rfl

theorem derive_id_length (h3 : Blake3) (b : List Nat) :
    (derive_id h3 b).data.length = 8 := by
  rw [derive_id_data, List.length_take]
  have h1 : 32 ≤ (bs58Encode (h3.hash b)).data.length := by
    have h2 := bs58Encode_length_ge (h3.hash b)
    rw [h3.length_eq b] at h2
    exact h2
  have : ID_LENGTH = 8 := rfl
  rw [this]
  omega

theorem derive_id_mem (h3 : Blake3) (b : List Nat) :
    ∀ c ∈ (derive_id h3 b).data, c ∈ BS58_ALPHABET := by
  intro c hc
  rw [derive_id_data] at hc
  exact mem_bs58Encode _ c (List.take_subset _ _ hc)

theorem derive_id_utf8Len (h3 : Blake3) (b : List Nat) :
    utf8Len (derive_id h3 b).data = 8 := by
  rw [utf8Len_eq_length _ (fun c hc => alpha_utf8Size c (derive_id_mem h3 b c hc))]
  exact derive_id_length h3 b

theorem derive_id_ne_slash (h3 : Blake3) (b : List Nat) :
    ∀ c ∈ (derive_id h3 b).data, c ≠ '/' :=
  fun c hc => alpha_ne_slash c (derive_id_mem h3 b c hc)

/-! ## Helper lemmas about path splitting -/

theorem splitChar_cons_sep (sep : Char) (xs : List Char) :
    splitChar sep (sep :: xs) = [] :: splitChar sep xs := by
  show (if sep = sep then [] :: splitChar sep xs
    else match splitChar sep xs with
      | g :: gs => (sep :: g) :: gs
      | [] => [[sep]]) = [] :: splitChar sep xs
  rw [if_pos rfl]

theorem splitChar_no_sep (sep : Char) (l : List Char) (h : ∀ x ∈ l, x ≠ sep) :
    splitChar sep l = [l] := by
  induction l with
  | nil => rfl
  | cons x xs ih =>
    unfold splitChar
    rw [if_neg (h x (by simp))]
    rw [ih (fun y hy => h y (by simp [hy]))]

theorem get_segments_of_slash (id : String) (h : ∀ c ∈ id.data, c ≠ '/') :
    (splitChar '/' ("/" ++ id).data).drop 1 = [id.data] := by
  rw [String.data_append]
  have h1 : ("/" : String).data = ['/'] := rfl
  rw [h1]
  simp only [List.cons_append, List.nil_append]
  rw [splitChar_cons_sep, splitChar_no_sep '/' id.data h]
  rfl

/-! ## Helper lemmas about the state -/

theorem fileKey_ne_metrics (id : String) : ("file_" ++ id) ≠ UPLOAD_METRICS_KEY := by
  intro h
  have hd := congrArg String.data h
  rw [String.data_append] at hd
  have h1 : ("file_" : String).data = 'f' :: "ile_".data := rfl
  have h2 : UPLOAD_METRICS_KEY.data = '_' :: "upload_metrics".data := rfl
  rw [h1, h2, List.cons_append] at hd
  have h3 := congrArg List.head? hd
  simp only [List.head?_cons, Option.some.injEq] at h3
  exact absurd h3 (by decide)

theorem kvInsert_cache (s : SysState) (key : String) (v : List Nat) :
    (kvInsert s key v).cache = s.cache := rfl

theorem kvInsert_cacheWriteOk (s : SysState) (key : String) (v : List Nat) :
    (kvInsert s key v).cacheWriteOk = s.cacheWriteOk := rfl

theorem kvInsert_kv_self_of_none (s : SysState) (key : String) (v : List Nat)
    (h : s.kv key = none) :
    (kvInsert s key v).kv key = some ⟨v, 0, some KV_TTL⟩ := by
  unfold kvInsert
  simp [h]

theorem kvInsert_kv_other (s : SysState) (key : String) (v : List Nat) (k : String)
    (h : k ≠ key) : (kvInsert s key v).kv k = s.kv k := by
  unfold kvInsert
  simp [h]

theorem track_cache (s : SysState) (id ts : String) :
    (track_uploads s id ts).cache = s.cache := rfl

theorem track_cacheWriteOk (s : SysState) (id ts : String) :
    (track_uploads s id ts).cacheWriteOk = s.cacheWriteOk := rfl

theorem track_kv_other (s : SysState) (id ts : String) (k : String)
    (h : k ≠ UPLOAD_METRICS_KEY) : (track_uploads s id ts).kv k = s.kv k := by
  unfold track_uploads
  simp [h]

theorem upload_count_track (s : SysState) (id ts : String) :
    upload_count (track_uploads s id ts) = upload_count s + 1 := by
  unfold upload_count track_uploads
  simp only [if_pos rfl]
  cases h : s.kv UPLOAD_METRICS_KEY <;> simp [h]

theorem upload_count_kvInsert (s : SysState) (key : String) (v : List Nat)
    (h : key ≠ UPLOAD_METRICS_KEY) :
    upload_count (kvInsert s key v) = upload_count s := by
  unfold upload_count
  rw [kvInsert_kv_other s key v UPLOAD_METRICS_KEY (Ne.symm h)]

/-! ## Characterizations of the handlers -/

theorem handle_put_valid (h3 : Blake3) (req : PutRequest) (ts : String) (s : SysState)
    (b : List Nat) (hb : req.body? = some b)
    (hmin : MIN_CONTENT_SIZE ≤ b.length) (hmax : b.length ≤ MAX_CONTENT_SIZE) :
    handle_put h3 req ts s =
      (⟨200, .text (mkDownloadUrl req.host req.pathSegments.getLast? (derive_id h3 b))⟩,
       match s.kv ("file_" ++ derive_id h3 b) with
       | some _ => s
       | none => track_uploads (kvInsert s ("file_" ++ derive_id h3 b) b) (derive_id h3 b) ts) := by
  unfold handle_put
  rw [hb]
  simp only [if_neg (by omega : ¬ b.length < MIN_CONTENT_SIZE),
    if_neg (by omega : ¬ MAX_CONTENT_SIZE < b.length)]
  cases h : s.kv ("file_" ++ derive_id h3 b) <;> simp [h]

theorem handle_get_badlen (path : String) (s : SysState) (idChars : List Char)
    (rest : List (List Char))
    (hseg : (splitChar '/' path.data).drop 1 = idChars :: rest)
    (hlen : utf8Len idChars ≠ ID_LENGTH) :
    handle_get path s = .ok (⟨404, .text "not found"⟩, s) := by
  unfold handle_get
  rw [hseg]
  simp [hlen]

theorem handle_get_cache_hit (path : String) (s : SysState) (idChars : List Char)
    (rest : List (List Char)) (entry : CacheEntry)
    (hseg : (splitChar '/' path.data).drop 1 = idChars :: rest)
    (hlen : utf8Len idChars = ID_LENGTH)
    (hc : s.cache ("file_" ++ String.mk idChars) = some entry) :
    handle_get path s = .ok (⟨200, .bytes entry.value⟩, s) := by
  unfold handle_get
  rw [hseg]
  simp [hlen, hc]

theorem handle_get_miss_absent (path : String) (s : SysState) (idChars : List Char)
    (rest : List (List Char))
    (hseg : (splitChar '/' path.data).drop 1 = idChars :: rest)
    (hlen : utf8Len idChars = ID_LENGTH)
    (hc : s.cache ("file_" ++ String.mk idChars) = none)
    (hk : s.kv ("file_" ++ String.mk idChars) = none) :
    handle_get path s = .ok (⟨404, .text "not found"⟩, s) := by
  unfold handle_get
  rw [hseg]
  simp [hlen, hc, hk]

theorem handle_get_miss_origin (path : String) (s : SysState) (idChars : List Char)
    (rest : List (List Char)) (e : KVEntry)
    (hseg : (splitChar '/' path.data).drop 1 = idChars :: rest)
    (hlen : utf8Len idChars = ID_LENGTH)
    (hc : s.cache ("file_" ++ String.mk idChars) = none)
    (hk : s.kv ("file_" ++ String.mk idChars) = some e)
    (hcw : s.cacheWriteOk = true) :
    handle_get path s =
      .ok (⟨200, .bytes e.value⟩, cacheInsert s ("file_" ++ String.mk idChars) e.value) := by
  unfold handle_get
  rw [hseg]
  simp [hlen, hc, hk, hcw]

theorem handle_get_miss_cachefail (path : String) (s : SysState) (idChars : List Char)
    (rest : List (List Char)) (e : KVEntry)
    (hseg : (splitChar '/' path.data).drop 1 = idChars :: rest)
    (hlen : utf8Len idChars = ID_LENGTH)
    (hc : s.cache ("file_" ++ String.mk idChars) = none)
    (hk : s.kv ("file_" ++ String.mk idChars) = some e)
    (hcw : s.cacheWriteOk = false) :
    handle_get path s = .error .cacheWriteError := by
  unfold handle_get
  rw [hseg]
  simp [hlen, hc, hk, hcw]

theorem handle_put_fresh (h3 : Blake3) (req : PutRequest) (ts : String) (s : SysState)
    (b : List Nat) (hb : req.body? = some b)
    (hmin : MIN_CONTENT_SIZE ≤ b.length) (hmax : b.length ≤ MAX_CONTENT_SIZE)
    (habsent : s.kv ("file_" ++ derive_id h3 b) = none) :
    handle_put h3 req ts s =
      (⟨200, .text (mkDownloadUrl req.host req.pathSegments.getLast? (derive_id h3 b))⟩,
       track_uploads (kvInsert s ("file_" ++ derive_id h3 b) b) (derive_id h3 b) ts) := by
  rw [handle_put_valid h3 req ts s b hb hmin hmax, habsent]

theorem handle_put_dup (h3 : Blake3) (req : PutRequest) (ts : String) (s : SysState)
    (b : List Nat) (e : KVEntry) (hb : req.body? = some b)
    (hmin : MIN_CONTENT_SIZE ≤ b.length) (hmax : b.length ≤ MAX_CONTENT_SIZE)
    (hpresent : s.kv ("file_" ++ derive_id h3 b) = some e) :
    handle_put h3 req ts s =
      (⟨200, .text (mkDownloadUrl req.host req.pathSegments.getLast? (derive_id h3 b))⟩, s) := by
  rw [handle_put_valid h3 req ts s b hb hmin hmax, hpresent]

theorem cacheInsert_cache_self (s : SysState) (key : String) (v : List Nat) :
    (cacheInsert s key v).cache key = some ⟨v, CACHE_TTL, ["get"]⟩ := by
  unfold cacheInsert
  simp

theorem put_count_mono (h3 : Blake3) (req : PutRequest) (ts : String) (s : SysState) :
    upload_count s ≤ upload_count (handle_put h3 req ts s).2 := by
  cases hb : req.body? with
  | none =>
    unfold handle_put
    rw [hb]
  | some b =>
    by_cases hmin : b.length < MIN_CONTENT_SIZE
    · have hsnd : (handle_put h3 req ts s).2 = s := by
        unfold handle_put
        simp only [hb]
        rw [if_pos hmin]
      rw [hsnd]
    · by_cases hmax : MAX_CONTENT_SIZE < b.length
      · have hsnd : (handle_put h3 req ts s).2 = s := by
          unfold handle_put
          simp only [hb]
          rw [if_neg hmin, if_pos hmax]
        rw [hsnd]
      · rcases hkv : s.kv ("file_" ++ derive_id h3 b) with _ | e
        · have hsnd : (handle_put h3 req ts s).2 =
              track_uploads (kvInsert s ("file_" ++ derive_id h3 b) b) (derive_id h3 b) ts := by
            rw [handle_put_fresh h3 req ts s b hb (by omega) (by omega) hkv]
          rw [hsnd, upload_count_track, upload_count_kvInsert s _ b (fileKey_ne_metrics _)]
          omega
        · have hsnd : (handle_put h3 req ts s).2 = s := by
            rw [handle_put_dup h3 req ts s b e hb (by omega) (by omega) hkv]
          rw [hsnd]

theorem get_state_kv (path : String) (s : SysState) :
    (match handle_get path s with | .ok (_, s1) => s1 | .error _ => s).kv = s.kv := by
  rcases hseg : (splitChar '/' path.data).drop 1 with _ | ⟨idChars, rest⟩
  · have hget : handle_get path s = .error .panicMissingSegment := by
      unfold handle_get
      rw [hseg]
      rfl
    rw [hget]
  · by_cases hlen : utf8Len idChars = ID_LENGTH
    · rcases hc : s.cache ("file_" ++ String.mk idChars) with _ | ce
      · rcases hk : s.kv ("file_" ++ String.mk idChars) with _ | e
        · rw [handle_get_miss_absent path s idChars rest hseg hlen hc hk]
        · rcases hcw : s.cacheWriteOk with _ | _
          · rw [handle_get_miss_cachefail path s idChars rest e hseg hlen hc hk hcw]
          · rw [handle_get_miss_origin path s idChars rest e hseg hlen hc hk hcw]
            rfl
      · rw [handle_get_cache_hit path s idChars rest ce hseg hlen hc]
    · rw [handle_get_badlen path s idChars rest hseg hlen]

theorem get_count_mono (path : String) (s : SysState) :
    upload_count (match handle_get path s with | .ok (_, s1) => s1 | .error _ => s)
      = upload_count s := by
  unfold upload_count
  rw [get_state_kv path s]

theorem step_mono (h3 : Blake3) (s : SysState) (op : Op) :
    upload_count s ≤ upload_count (stepOp h3 s op) := by
  cases op with
  | put req ts => exact put_count_mono h3 req ts s
  | get path =>
    have h := get_count_mono path s
    show upload_count s ≤ upload_count
      (match handle_get path s with | .ok (_, s1) => s1 | .error _ => s)
    omega
  | usage host => exact le_refl _

/-! ## Claim theorems -/

/-- C3: upload size validation is boundary-exact. An absent body fails
with status 400 and message "missing upload body"; a 31-byte body fails
with 400 "content too small"; a 32-byte body passes validation and gets
the 200 URL response; a body of exactly 24 MiB (25165824 bytes) passes;
24 MiB + 1 fails with 413 "content too large". The presence check comes
before the size checks (an absent body yields the presence error), and
the minimum check before the maximum, as in the handler definition. -/
theorem c3_boundary_sizes (h3 : Blake3) (host : String) (segs : List String)
    (ts : String) (s : SysState) :
    (handle_put h3 ⟨none, host, segs⟩ ts s = (⟨400, .text "missing upload body"⟩, s)) ∧
    (∀ b : List Nat, b.length = 31 →
      handle_put h3 ⟨some b, host, segs⟩ ts s = (⟨400, .text "content too small"⟩, s)) ∧
    (∀ b : List Nat, b.length = 32 →
      (handle_put h3 ⟨some b, host, segs⟩ ts s).1 =
        ⟨200, .text (mkDownloadUrl host segs.getLast? (derive_id h3 b))⟩) ∧
    (∀ b : List Nat, b.length = 25165824 →
      (handle_put h3 ⟨some b, host, segs⟩ ts s).1 =
        ⟨200, .text (mkDownloadUrl host segs.getLast? (derive_id h3 b))⟩) ∧
    (∀ b : List Nat, b.length = 25165824 + 1 →
      handle_put h3 ⟨some b, host, segs⟩ ts s = (⟨413, .text "content too large"⟩, s)) := by
  refine ⟨rfl, ?_, ?_, ?_, ?_⟩
  · intro b hb
    unfold handle_put
    simp only
    rw [if_pos (by rw [hb]; decide)]
  · intro b hb
    rw [handle_put_valid h3 ⟨some b, host, segs⟩ ts s b rfl (by rw [hb]; decide) (by rw [hb]; decide)]
  · intro b hb
    rw [handle_put_valid h3 ⟨some b, host, segs⟩ ts s b rfl (by rw [hb]; decide) (by rw [hb]; decide)]
  · intro b hb
    unfold handle_put
    simp only
    rw [if_neg (by rw [hb]; decide), if_pos (by rw [hb]; decide)]

/-- Witness for C3 at concrete inputs: the five boundary cases evaluated
at replicate bodies from the empty initial state. -/
theorem c3_boundary_sizes_witness :
    (handle_put testBlake3 ⟨none, "upld.is", []⟩ "0" initState
      = (⟨400, .text "missing upload body"⟩, initState)) ∧
    (handle_put testBlake3 ⟨some (List.replicate 31 0), "upld.is", []⟩ "0" initState
      = (⟨400, .text "content too small"⟩, initState)) ∧
    ((handle_put testBlake3 ⟨some (List.replicate 32 0), "upld.is", []⟩ "0" initState).1.status
      = 200) ∧
    ((handle_put testBlake3 ⟨some (List.replicate 25165824 0), "upld.is", []⟩ "0" initState).1.status
      = 200) ∧
    (handle_put testBlake3 ⟨some (List.replicate 25165825 0), "upld.is", []⟩ "0" initState
      = (⟨413, .text "content too large"⟩, initState)) := by
  have h := c3_boundary_sizes testBlake3 "upld.is" [] "0" initState
  refine ⟨h.1, h.2.1 _ (by rw [List.length_replicate]), ?_, ?_,
    h.2.2.2.2 _ (by rw [List.length_replicate])⟩
  · rw [h.2.2.1 _ (by rw [List.length_replicate])]
  · rw [h.2.2.2.1 _ (by rw [List.length_replicate])]

/-- C4: an upload request failing validation (absent body, too small or
too large) performs no storage operation: the state is returned
unchanged (so the stored pastes and the upload log are untouched and
current_count is unchanged), and the response does not depend on the
state at all. -/
theorem c4_invalid_no_storage (h3 : Blake3) (req : PutRequest) (ts : String)
    (hbad : req.body? = none ∨ ∃ b, req.body? = some b ∧
      (b.length < MIN_CONTENT_SIZE ∨ MAX_CONTENT_SIZE < b.length)) :
    ∀ s s' : SysState,
      (handle_put h3 req ts s).2 = s ∧
      upload_count (handle_put h3 req ts s).2 = upload_count s ∧
      (handle_put h3 req ts s).1 = (handle_put h3 req ts s').1 := by
  intro s s'
  rcases hbad with hnone | ⟨b, hb, hsz⟩
  · unfold handle_put
    rw [hnone]
    exact ⟨rfl, rfl, rfl⟩
  · unfold handle_put
    simp only [hb]
    rcases hsz with hlt | hgt
    · simp [if_pos hlt]
    · by_cases hlt : b.length < MIN_CONTENT_SIZE
      · simp [if_pos hlt]
      · simp [if_neg hlt, if_pos hgt]

/-- Witness for C4 at a concrete too-small body, compared across two
different states. -/
theorem c4_invalid_no_storage_witness :
    (handle_put testBlake3 ⟨some [1, 2, 3], "upld.is", []⟩ "0" initState).2 = initState ∧
    upload_count (handle_put testBlake3 ⟨some [1, 2, 3], "upld.is", []⟩ "0" initState).2
      = upload_count initState ∧
    (handle_put testBlake3 ⟨some [1, 2, 3], "upld.is", []⟩ "0" initState).1
      = (handle_put testBlake3 ⟨some [1, 2, 3], "upld.is", []⟩ "0" sCacheHit).1 :=
  c4_invalid_no_storage testBlake3 ⟨some [1, 2, 3], "upld.is", []⟩ "0"
    (Or.inr ⟨[1, 2, 3], rfl, Or.inl (by decide)⟩) initState sCacheHit

/-- C5: a retrieval whose first path segment has byte length other than 8
answers 404 "not found" for every state, leaving the state unchanged; the
response is independent of the state, so neither the cache nor the store
is consulted. -/
theorem c5_bad_id_length (path : String) (idChars : List Char) (rest : List (List Char))
    (hseg : (splitChar '/' path.data).drop 1 = idChars :: rest)
    (hlen : utf8Len idChars ≠ ID_LENGTH) :
    ∀ s : SysState, handle_get path s = .ok (⟨404, .text "not found"⟩, s) :=
  fun s => handle_get_badlen path s idChars rest hseg hlen

/-- Witness for C5: a three-character identifier against a state whose
cache and store are nonempty. -/
theorem c5_bad_id_length_witness :
    handle_get "/abc" sCacheHit = .ok (⟨404, .text "not found"⟩, sCacheHit) :=
  c5_bad_id_length "/abc" ['a', 'b', 'c'] [] rfl (by decide) sCacheHit

/-- C6: identifier derivation is a deterministic pure function of the
content bytes only: any two uploads of the same valid body, whatever the
state, timestamp, host or filename, answer URLs carrying one and the
same identifier, namely the first 8 characters of the base-58 encoding
of the blake3 hash of the body. -/
theorem c6_id_deterministic (h3 : Blake3) (b : List Nat)
    (hmin : MIN_CONTENT_SIZE ≤ b.length) (hmax : b.length ≤ MAX_CONTENT_SIZE)
    (req1 req2 : PutRequest) (ts1 ts2 : String) (s1 s2 : SysState)
    (h1 : req1.body? = some b) (h2 : req2.body? = some b) :
    (handle_put h3 req1 ts1 s1).1 =
      ⟨200, .text (mkDownloadUrl req1.host req1.pathSegments.getLast? (derive_id h3 b))⟩ ∧
    (handle_put h3 req2 ts2 s2).1 =
      ⟨200, .text (mkDownloadUrl req2.host req2.pathSegments.getLast? (derive_id h3 b))⟩ ∧
    derive_id h3 b = ⟨(bs58Encode (h3.hash b)).data.take ID_LENGTH⟩ := by
  refine ⟨?_, ?_, rfl⟩
  · rw [handle_put_valid h3 req1 ts1 s1 b h1 hmin hmax]
  · rw [handle_put_valid h3 req2 ts2 s2 b h2 hmin hmax]

/-- Witness for C6: two uploads of the same 32-byte body with different
hosts, filenames, timestamps and states. -/
theorem c6_id_deterministic_witness :
    (handle_put testBlake3 ⟨some (List.replicate 32 0), "a.example", ["f.txt"]⟩ "1" initState).1 =
      ⟨200, .text (mkDownloadUrl "a.example" (["f.txt"] : List String).getLast?
        (derive_id testBlake3 (List.replicate 32 0)))⟩ ∧
    (handle_put testBlake3 ⟨some (List.replicate 32 0), "b.example", []⟩ "2" sCacheHit).1 =
      ⟨200, .text (mkDownloadUrl "b.example" ([] : List String).getLast?
        (derive_id testBlake3 (List.replicate 32 0)))⟩ ∧
    derive_id testBlake3 (List.replicate 32 0) =
      ⟨(bs58Encode (testBlake3.hash (List.replicate 32 0))).data.take ID_LENGTH⟩ :=
  c6_id_deterministic testBlake3 (List.replicate 32 0) (by decide) (by decide)
    ⟨some (List.replicate 32 0), "a.example", ["f.txt"]⟩
    ⟨some (List.replicate 32 0), "b.example", []⟩ "1" "2" initState sCacheHit rfl rfl

/-- C7: uploads deduplicate. Uploading a valid body whose key is absent
writes it and bumps the counter by one; uploading the same body again
answers the same identifier in the URL, leaves the state exactly as it
was (no store write, no log append), and the counter across the two
uploads has grown by exactly one, not two. -/
theorem c7_dedup (h3 : Blake3) (b : List Nat)
    (hmin : MIN_CONTENT_SIZE ≤ b.length) (hmax : b.length ≤ MAX_CONTENT_SIZE)
    (req1 req2 : PutRequest) (ts1 ts2 : String) (s : SysState)
    (h1 : req1.body? = some b) (h2 : req2.body? = some b)
    (habsent : s.kv ("file_" ++ derive_id h3 b) = none) :
    (handle_put h3 req1 ts1 s).1 =
      ⟨200, .text (mkDownloadUrl req1.host req1.pathSegments.getLast? (derive_id h3 b))⟩ ∧
    (handle_put h3 req2 ts2 (handle_put h3 req1 ts1 s).2).1 =
      ⟨200, .text (mkDownloadUrl req2.host req2.pathSegments.getLast? (derive_id h3 b))⟩ ∧
    (handle_put h3 req2 ts2 (handle_put h3 req1 ts1 s).2).2 = (handle_put h3 req1 ts1 s).2 ∧
    upload_count (handle_put h3 req1 ts1 s).2 = upload_count s + 1 ∧
    upload_count (handle_put h3 req2 ts2 (handle_put h3 req1 ts1 s).2).2
      = upload_count s + 1 := by
  have hput1 := handle_put_fresh h3 req1 ts1 s b h1 hmin hmax habsent
  have hsnd1 : (handle_put h3 req1 ts1 s).2 =
      track_uploads (kvInsert s ("file_" ++ derive_id h3 b) b) (derive_id h3 b) ts1 := by
    rw [hput1]
  have hkv1 : (handle_put h3 req1 ts1 s).2.kv ("file_" ++ derive_id h3 b)
      = some ⟨b, 0, some KV_TTL⟩ := by
    rw [hsnd1, track_kv_other _ _ _ _ (fileKey_ne_metrics _),
      kvInsert_kv_self_of_none s _ b habsent]
  have hput2 := handle_put_dup h3 req2 ts2 (handle_put h3 req1 ts1 s).2 b
    ⟨b, 0, some KV_TTL⟩ h2 hmin hmax hkv1
  have hcount1 : upload_count (handle_put h3 req1 ts1 s).2 = upload_count s + 1 := by
    rw [hsnd1, upload_count_track, upload_count_kvInsert s _ b (fileKey_ne_metrics _)]
  refine ⟨?_, ?_, ?_, hcount1, ?_⟩
  · rw [hput1]
  · rw [hput2]
  · rw [hput2]
  · have hsnd2 : (handle_put h3 req2 ts2 (handle_put h3 req1 ts1 s).2).2
        = (handle_put h3 req1 ts1 s).2 := by
      rw [hput2]
    rw [hsnd2, hcount1]

/-- Witness for C7: the same 32-byte body uploaded twice from the empty
initial state, with different hosts and timestamps. -/
theorem c7_dedup_witness :
    (handle_put testBlake3 ⟨some (List.replicate 32 0), "a.example", []⟩ "1" initState).1 =
      ⟨200, .text (mkDownloadUrl "a.example" ([] : List String).getLast?
        (derive_id testBlake3 (List.replicate 32 0)))⟩ ∧
    (handle_put testBlake3 ⟨some (List.replicate 32 0), "b.example", []⟩ "2"
        (handle_put testBlake3 ⟨some (List.replicate 32 0), "a.example", []⟩ "1" initState).2).1 =
      ⟨200, .text (mkDownloadUrl "b.example" ([] : List String).getLast?
        (derive_id testBlake3 (List.replicate 32 0)))⟩ ∧
    (handle_put testBlake3 ⟨some (List.replicate 32 0), "b.example", []⟩ "2"
        (handle_put testBlake3 ⟨some (List.replicate 32 0), "a.example", []⟩ "1" initState).2).2 =
      (handle_put testBlake3 ⟨some (List.replicate 32 0), "a.example", []⟩ "1" initState).2 ∧
    upload_count (handle_put testBlake3 ⟨some (List.replicate 32 0), "a.example", []⟩ "1"
        initState).2 = upload_count initState + 1 ∧
    upload_count (handle_put testBlake3 ⟨some (List.replicate 32 0), "b.example", []⟩ "2"
        (handle_put testBlake3 ⟨some (List.replicate 32 0), "a.example", []⟩ "1" initState).2).2
      = upload_count initState + 1 :=
  c7_dedup testBlake3 (List.replicate 32 0) (by decide) (by decide)
    ⟨some (List.replicate 32 0), "a.example", []⟩
    ⟨some (List.replicate 32 0), "b.example", []⟩ "1" "2" initState rfl rfl rfl

/-- C8: the upload counter is monotone: across any sequence of upload,
retrieval and info-page operations the counter never decreases, and it
is 0 in any state where the upload-log key has never been written. -/
theorem c8_counter_monotone (h3 : Blake3) (s : SysState) (ops : List Op) :
    upload_count s ≤ upload_count (ops.foldl (stepOp h3) s) ∧
    (s.kv UPLOAD_METRICS_KEY = none → upload_count s = 0) := by
  constructor
  · induction ops generalizing s with
    | nil => exact le_refl _
    | cons op ops ih =>
      have h1 := step_mono h3 s op
      have h2 := ih (stepOp h3 s op)
      simp only [List.foldl_cons]
      omega
  · intro h
    unfold upload_count
    rw [h]

/-- Witness for C8: a concrete three-operation run from the empty
initial state. -/
theorem c8_counter_monotone_witness :
    upload_count initState ≤
      upload_count ([Op.put ⟨some (List.replicate 32 1), "upld.is", []⟩ "5",
        Op.get "/11111111", Op.usage "upld.is"].foldl (stepOp testBlake3) initState) ∧
    (initState.kv UPLOAD_METRICS_KEY = none → upload_count initState = 0) :=
  c8_counter_monotone testBlake3 initState
    [Op.put ⟨some (List.replicate 32 1), "upld.is", []⟩ "5",
     Op.get "/11111111", Op.usage "upld.is"]

/-- C9: retrieval follows the two-tier read path. For a well-formed
8-byte identifier segment: a cache hit is served from the cache with the
state (hence the store) untouched; on a cache miss an absent store key
answers 404; a present store key answers its bytes and populates the
cache under the same key with the 30-day cache TTL and the surrogate
tag "get". -/
theorem c9_two_tier (path : String) (idChars : List Char) (rest : List (List Char))
    (s : SysState)
    (hseg : (splitChar '/' path.data).drop 1 = idChars :: rest)
    (hlen : utf8Len idChars = ID_LENGTH) :
    (∀ e, s.cache ("file_" ++ String.mk idChars) = some e →
      handle_get path s = .ok (⟨200, .bytes e.value⟩, s)) ∧
    (s.cache ("file_" ++ String.mk idChars) = none →
      s.kv ("file_" ++ String.mk idChars) = none →
      handle_get path s = .ok (⟨404, .text "not found"⟩, s)) ∧
    (∀ e, s.cache ("file_" ++ String.mk idChars) = none →
      s.kv ("file_" ++ String.mk idChars) = some e →
      s.cacheWriteOk = true →
      handle_get path s = .ok (⟨200, .bytes e.value⟩,
        cacheInsert s ("file_" ++ String.mk idChars) e.value) ∧
      (cacheInsert s ("file_" ++ String.mk idChars) e.value).cache
          ("file_" ++ String.mk idChars) = some ⟨e.value, CACHE_TTL, ["get"]⟩ ∧
      CACHE_TTL = 30 * 86400) :=
  ⟨fun e hc => handle_get_cache_hit path s idChars rest e hseg hlen hc,
   fun hc hk => handle_get_miss_absent path s idChars rest hseg hlen hc hk,
   fun e hc hk hcw => ⟨handle_get_miss_origin path s idChars rest e hseg hlen hc hk hcw,
     cacheInsert_cache_self s _ e.value, rfl⟩⟩

/-- Witness for C9: a well-formed identifier served from a state whose
cache holds the entry. -/
theorem c9_two_tier_witness :
    handle_get "/abcdefgh" sCacheHit =
      .ok (⟨200, .bytes (⟨[1, 2, 3], CACHE_TTL, ["get"]⟩ : CacheEntry).value⟩, sCacheHit) :=
  (c9_two_tier "/abcdefgh" ['a', 'b', 'c', 'd', 'e', 'f', 'g', 'h'] [] sCacheHit rfl
    (by decide)).1 ⟨[1, 2, 3], CACHE_TTL, ["get"]⟩ rfl

/-- C10: taking the 8-character identifier prefix never fails: for every
content, the base-58 encoding of the 32-byte blake3 digest has at least
8 characters, all of them one-byte ASCII, so the byte slice of length 8
is always in bounds; the derived identifier has exactly 8 characters and
8 bytes. -/
theorem c10_prefix_in_bounds (h3 : Blake3) (b : List Nat) :
    8 ≤ (bs58Encode (h3.hash b)).length ∧
    (∀ c ∈ (bs58Encode (h3.hash b)).data, c.utf8Size = 1) ∧
    (derive_id h3 b).length = 8 ∧
    utf8Len (derive_id h3 b).data = 8 := by
  refine ⟨?_, ?_, derive_id_length h3 b, derive_id_utf8Len h3 b⟩
  · have h2 := bs58Encode_length_ge (h3.hash b)
    rw [h3.length_eq b] at h2
    omega
  · exact fun c hc => alpha_utf8Size c (mem_bs58Encode _ c hc)

/-- Witness for C10 at a concrete one-byte content. -/
theorem c10_prefix_in_bounds_witness :
    8 ≤ (bs58Encode (testBlake3.hash [7])).length ∧
    (∀ c ∈ (bs58Encode (testBlake3.hash [7])).data, c.utf8Size = 1) ∧
    (derive_id testBlake3 [7]).length = 8 ∧
    utf8Len (derive_id testBlake3 [7]).data = 8 :=
  c10_prefix_in_bounds testBlake3 [7]

/-- C2 counterexample: the claim says a cache-population failure must
not fail the retrieval. At this concrete state the store lookup
succeeds (the key holds bytes), the cache misses and the cache write
fails; the handler answers an error — propagated by the question marks
on the cache insert path in main.rs — and no 200 response with the
origin bytes is produced. -/
theorem c2_cache_fault_counterexample :
    sCacheFail.kv "file_aaaaaaaa" = some ⟨[65], 0, some KV_TTL⟩ ∧
    sCacheFail.cache "file_aaaaaaaa" = none ∧
    handle_get "/aaaaaaaa" sCacheFail = .error .cacheWriteError ∧
    ∀ r, handle_get "/aaaaaaaa" sCacheFail ≠ .ok r := by
  have hget : handle_get "/aaaaaaaa" sCacheFail = .error .cacheWriteError :=
    handle_get_miss_cachefail "/aaaaaaaa" sCacheFail
      ['a', 'a', 'a', 'a', 'a', 'a', 'a', 'a'] [] ⟨[65], 0, some KV_TTL⟩
      rfl (by decide) rfl rfl rfl
  refine ⟨rfl, rfl, hget, ?_⟩
  intro r h
  rw [hget] at h
  exact Except.noConfusion h

/-- C2 amended: when the ContentStore lookup succeeds but populating the
EdgeCache fails, the failure propagates and the whole retrieval fails
with an error; the origin bytes are not served and no 200 status is
produced. -/
theorem c2_cache_fault_amended (path : String) (idChars : List Char)
    (rest : List (List Char)) (s : SysState) (e : KVEntry)
    (hseg : (splitChar '/' path.data).drop 1 = idChars :: rest)
    (hlen : utf8Len idChars = ID_LENGTH)
    (hc : s.cache ("file_" ++ String.mk idChars) = none)
    (hk : s.kv ("file_" ++ String.mk idChars) = some e)
    (hcw : s.cacheWriteOk = false) :
    handle_get path s = .error .cacheWriteError ∧
    ∀ r, handle_get path s ≠ .ok r := by
  have hget := handle_get_miss_cachefail path s idChars rest e hseg hlen hc hk hcw
  refine ⟨hget, ?_⟩
  intro r h
  rw [hget] at h
  exact Except.noConfusion h

/-- Witness for the amended C2 at the concrete failing-cache state. -/
theorem c2_cache_fault_amended_witness :
    handle_get "/aaaaaaaa" sCacheFail = .error .cacheWriteError ∧
    ∀ r, handle_get "/aaaaaaaa" sCacheFail ≠ .ok r :=
  c2_cache_fault_amended "/aaaaaaaa" ['a', 'a', 'a', 'a', 'a', 'a', 'a', 'a'] []
    sCacheFail ⟨[65], 0, some KV_TTL⟩ rfl (by decide) rfl rfl rfl

/-- C1: round trip. For a valid body (32 bytes to 24 MiB), from any
state in which the derived key is not bound to different content in the
store or the cache (the accepted hash-prefix-collision caveat) and in
which cache writes succeed, uploading the body and then retrieving the
returned 8-character identifier answers status 200 with exactly the
original bytes. -/
theorem c1_round_trip (h3 : Blake3) (b : List Nat) (host : String) (segs : List String)
    (ts : String) (s : SysState)
    (hmin : MIN_CONTENT_SIZE ≤ b.length) (hmax : b.length ≤ MAX_CONTENT_SIZE)
    (hkv : ∀ e, s.kv ("file_" ++ derive_id h3 b) = some e → e.value = b)
    (hcache : ∀ e, s.cache ("file_" ++ derive_id h3 b) = some e → e.value = b)
    (hcw : s.cacheWriteOk = true) :
    (derive_id h3 b).length = ID_LENGTH ∧
    ∃ s2, handle_get ("/" ++ derive_id h3 b) ((handle_put h3 ⟨some b, host, segs⟩ ts s).2)
      = .ok (⟨200, .bytes b⟩, s2) := by
  refine ⟨derive_id_length h3 b, ?_⟩
  have hseg0 : (splitChar '/' ("/" ++ derive_id h3 b).data).drop 1 = [(derive_id h3 b).data] :=
    get_segments_of_slash _ (derive_id_ne_slash h3 b)
  have hmk : String.mk (derive_id h3 b).data = derive_id h3 b := rfl
  have hulen : utf8Len (derive_id h3 b).data = ID_LENGTH := derive_id_utf8Len h3 b
  cases hkv0 : s.kv ("file_" ++ derive_id h3 b) with
  | some e =>
    have hsnd : (handle_put h3 ⟨some b, host, segs⟩ ts s).2 = s := by
      rw [handle_put_dup h3 ⟨some b, host, segs⟩ ts s b e rfl hmin hmax hkv0]
    rw [hsnd]
    cases hc : s.cache ("file_" ++ derive_id h3 b) with
    | some ce =>
      refine ⟨s, ?_⟩
      have hget := handle_get_cache_hit ("/" ++ derive_id h3 b) s (derive_id h3 b).data
        [] ce hseg0 hulen (by rw [hmk]; exact hc)
      rw [hget, hcache ce hc]
    | none =>
      refine ⟨cacheInsert s ("file_" ++ String.mk (derive_id h3 b).data) e.value, ?_⟩
      have hget := handle_get_miss_origin ("/" ++ derive_id h3 b) s (derive_id h3 b).data
        [] e hseg0 hulen (by rw [hmk]; exact hc) (by rw [hmk]; exact hkv0) hcw
      rw [hget, hkv e hkv0]
  | none =>
    have hsnd : (handle_put h3 ⟨some b, host, segs⟩ ts s).2 =
        track_uploads (kvInsert s ("file_" ++ derive_id h3 b) b) (derive_id h3 b) ts := by
      rw [handle_put_fresh h3 ⟨some b, host, segs⟩ ts s b rfl hmin hmax hkv0]
    rw [hsnd]
    have hkv2 : (track_uploads (kvInsert s ("file_" ++ derive_id h3 b) b) (derive_id h3 b)
        ts).kv ("file_" ++ derive_id h3 b) = some ⟨b, 0, some KV_TTL⟩ := by
      rw [track_kv_other _ _ _ _ (fileKey_ne_metrics _),
        kvInsert_kv_self_of_none s _ b hkv0]
    have hc2 : (track_uploads (kvInsert s ("file_" ++ derive_id h3 b) b) (derive_id h3 b)
        ts).cache = s.cache := by
      rw [track_cache, kvInsert_cache]
    have hcw2 : (track_uploads (kvInsert s ("file_" ++ derive_id h3 b) b) (derive_id h3 b)
        ts).cacheWriteOk = true := by
      rw [track_cacheWriteOk, kvInsert_cacheWriteOk]
      exact hcw
    cases hc : s.cache ("file_" ++ derive_id h3 b) with
    | some ce =>
      refine ⟨track_uploads (kvInsert s ("file_" ++ derive_id h3 b) b) (derive_id h3 b) ts, ?_⟩
      have hget := handle_get_cache_hit ("/" ++ derive_id h3 b) _ (derive_id h3 b).data
        [] ce hseg0 hulen (by rw [hmk, hc2]; exact hc)
      rw [hget, hcache ce hc]
    | none =>
      refine ⟨cacheInsert (track_uploads (kvInsert s ("file_" ++ derive_id h3 b) b)
        (derive_id h3 b) ts) ("file_" ++ String.mk (derive_id h3 b).data)
        (⟨b, 0, some KV_TTL⟩ : KVEntry).value, ?_⟩
      have hget := handle_get_miss_origin ("/" ++ derive_id h3 b) _ (derive_id h3 b).data
        [] ⟨b, 0, some KV_TTL⟩ hseg0 hulen (by rw [hmk, hc2]; exact hc)
        (by rw [hmk]; exact hkv2) hcw2
      rw [hget]

/-- Witness for C1: a 32-byte body uploaded to the empty initial state
and retrieved again. -/
theorem c1_round_trip_witness :
    (derive_id testBlake3 (List.replicate 32 0)).length = ID_LENGTH ∧
    ∃ s2, handle_get ("/" ++ derive_id testBlake3 (List.replicate 32 0))
        ((handle_put testBlake3 ⟨some (List.replicate 32 0), "upld.is", ["file.txt"]⟩ "123"
          initState).2)
      = .ok (⟨200, .bytes (List.replicate 32 0)⟩, s2) :=
  c1_round_trip testBlake3 (List.replicate 32 0) "upld.is" ["file.txt"] "123" initState
    (by decide) (by decide)
    (fun e h => by simp only [initState] at h; exact Option.noConfusion h)
    (fun e h => by simp only [initState] at h; exact Option.noConfusion h) rfl
